import Mathlib

/-!
Shallow embedding of the prototorch_models visualization callbacks
(`src/prototorch/models/vis.py` and
`src/prototorch/models/callbacks/visualization.py`) and proofs about the
mesh engine, data ingestion, epoch gating and topology-edge rendering.
Real coordinates are modelled by rationals; numpy arrays by lists.
-/

/-- Minimum of a list of rationals; the empty case never arises for the
nonempty point clouds handled by the callbacks (numpy `arr.min()`). -/
def qmin : List ℚ → ℚ
  | [] => 0
  | a :: l => l.foldl min a

/-- Maximum of a list of rationals (numpy `arr.max()`). -/
def qmax : List ℚ → ℚ
  | [] => 0
  | a :: l => l.foldl max a

/-- Number of samples produced by `np.arange(start, stop, step)` for a
nonzero step: `max 0 ⌈(stop - start) / step⌉`. -/
def npArangeLen (start stop step : ℚ) : ℕ :=
  (Int.ceil ((stop - start) / step)).toNat

/-- The samples of `np.arange(start, stop, step)` for a nonzero step:
`start + i * step` for `i = 0, …, ⌈(stop - start)/step⌉ - 1`. -/
def npArange (start stop step : ℚ) : List ℚ :=
  (List.range (npArangeLen start stop step)).map
    (fun (i : ℕ) => start + (i : ℚ) * step)

/-- The two axes of the sampling grid built in
`VisPointProtos.on_epoch_start`: `np.meshgrid(xs, ys)` yields coordinate
arrays of shape `(ys.length, xs.length)`. -/
structure Mesh2D where
  xs : List ℚ
  ys : List ℚ
  deriving DecidableEq, Repr

/-- The flattened query-point list `np.c_[xx.ravel(), yy.ravel()]`:
row-major over the `(ys.length, xs.length)` grid. -/
def Mesh2D.queryPoints (m : Mesh2D) : List (ℚ × ℚ) :=
  m.ys.flatMap (fun y => m.xs.map (fun x => (x, y)))

/-- Failure modes of the mesh construction.  `degenerate` carries the
offending expanded x-range, mirroring the re-raised
`ValueError(f"x_min: …, x_max: …")` of
`callbacks/visualization.py` lines 227-230. -/
inductive MeshError where
  | degenerate (xmin xmax : ℚ) : MeshError
  | tooLarge : MeshError
  deriving DecidableEq, Repr

/-- Mesh construction of `VisPointProtos.on_epoch_start` (voronoi branch,
`callbacks/visualization.py` lines 214-235): per-axis min/max of the
combined cloud, expanded by `border`, then `np.arange` on each axis.
Both axes use the step `(x_max - x_min) / resolution` derived from the
x-range.  `np.arange` raises `ValueError` exactly when its step is zero,
which the except-branch re-raises with the x-range in the message; this
is the `degenerate` error.  The model covers positive resolutions, the
only ones the callback is run with. -/
def visPointProtos_mesh (cloud : List (ℚ × ℚ)) (border : ℚ)
    (resolution : ℕ) : Except MeshError Mesh2D :=
  let xmin := qmin (cloud.map Prod.fst) - border
  let xmax := qmax (cloud.map Prod.fst) + border
  let ymin := qmin (cloud.map Prod.snd) - border
  let ymax := qmax (cloud.map Prod.snd) + border
  let step := (xmax - xmin) / (resolution : ℚ)
  if step = 0 then
    Except.error (MeshError.degenerate xmin xmax)
  else
    Except.ok { xs := npArange xmin xmax step, ys := npArange ymin ymax step }

/-! Data ingestion of `Vis2DAbstract.__init__` (`vis.py` lines 30-42).
A tensor is a nested structure of rational scalars; a batch of features
is a list of tensors, a batch of labels a list of rationals. -/

/-- A torch tensor, shallowly: a scalar or a list of sub-tensors. -/
inductive NTensor where
  | scalar : ℚ → NTensor
  | dim : List NTensor → NTensor

mutual

/-- All scalar entries of a tensor, in storage (row-major) order. -/
def NTensor.flat : NTensor → List ℚ
  | NTensor.scalar q => [q]
  | NTensor.dim ts => flatCat ts

/-- Concatenated entries of a list of tensors. -/
def flatCat : List NTensor → List ℚ
  | [] => []
  | t :: ts => NTensor.flat t ++ flatCat ts

end

/-- The optional flattening step `x = x.reshape(len(x), -1)` (`vis.py`
line 42): each sample becomes the 1-D vector of its entries. -/
def reshape_flatten (x : List NTensor) : List NTensor :=
  x.map (fun t => NTensor.dim (t.flat.map NTensor.scalar))

/-- Shape (c), `isinstance(data, Dataset)` branch (`vis.py` line 31):
`next(iter(DataLoader(data, batch_size=len(data))))` collates every
sample, in order, into one full-size `(features, labels)` batch. -/
def ingest_dataset (ds : List (NTensor × ℚ)) : List NTensor × List ℚ :=
  (ds.map Prod.fst, ds.map Prod.snd)

/-- Shape (b), `isinstance(data, DataLoader)` branch (`vis.py` lines
33-37): start from empty tensors and `torch.cat` every emitted batch in
order. -/
def ingest_loader (batches : List (List NTensor × List ℚ)) :
    List NTensor × List ℚ :=
  batches.foldl (fun acc b => (acc.1 ++ b.1, acc.2 ++ b.2)) ([], [])

/-- Shape (a), the `else` branch `x, y = data` (`vis.py` line 39) for an
explicit `(features, labels)` pair. -/
def ingest_pair (x : List NTensor) (y : List ℚ) : List NTensor × List ℚ :=
  (x, y)

/-- The flattening applied after whichever ingestion branch ran
(`vis.py` lines 41-42). -/
def applyFlatten (flag : Bool) (xy : List NTensor × List ℚ) :
    List NTensor × List ℚ :=
  (if flag then reshape_flatten xy.1 else xy.1, xy.2)

/-- Construction-time failure of `Vis2DAbstract.__init__`: the `else`
branch `x, y = data` raises (`ValueError`: wrong number of values to
unpack) when `data` is not a two-element sequence; the spec's
`InvalidInputKind`. -/
inductive InitError where
  | invalidInputKind (arity : ℕ) : InitError
  deriving DecidableEq, Repr

/-- Tuple unpacking `x, y = data` of the `else` branch (`vis.py` line
39), over an arbitrary element type: succeeds exactly on two-element
sequences, otherwise fails with the sequence's length. -/
def vis2d_unpack2 {α : Type} (elems : List α) : Except InitError (α × α) :=
  match elems with
  | [a, b] => Except.ok (a, b)
  | _ => Except.error (InitError.invalidInputKind elems.length)

/-! Epoch gating. -/

/-- The interval gate `VisWeights._skip_epoch`
(`callbacks/visualization.py` lines 76-80): with a truthy interval,
skip unless the epoch is a multiple of it; a falsy (zero) interval
never skips. -/
def skip_epoch (interval epoch : ℕ) : Bool :=
  if interval ≠ 0 then
    if epoch % interval ≠ 0 then true else false
  else false

/-- The last-epoch-only gate `Vis2DAbstract.precheck` (`vis.py` lines
60-64): with `show_last_only` set, pass only at epoch
`max_epochs - 1`. -/
def precheck (show_last_only : Bool) (current_epoch max_epochs : ℕ) : Bool :=
  if show_last_only then
    if current_epoch ≠ max_epochs - 1 then false else true
  else true

/-- Outcome of one epoch-boundary hook: whether the drawing ran, and the
Python return value (`some true` is the short-circuit skip signal,
`none` the implicit `None` of a completed cycle). -/
structure HookOutcome where
  drew : Bool
  ret : Option Bool
  deriving DecidableEq, Repr

/-- Control flow of `VisGLVQ2D.on_epoch_end` (`vis.py` lines 121-123):
when `precheck` fails the hook returns `True` at once and draws
nothing; otherwise it renders and returns `None`. -/
def visGLVQ2D_on_epoch_end (show_last_only : Bool)
    (current_epoch max_epochs : ℕ) : HookOutcome :=
  if !(precheck show_last_only current_epoch max_epochs) then
    { drew := false, ret := some true }
  else
    { drew := true, ret := none }

/-- Modelled from the spec: no class of the source holds both gates
(`interval` lives on `VisWeights`, `show_last_only` on
`Vis2DAbstract`), so the spec's combined Lifecycle Controller is taken
from section 4.5 — the interval gate (embedded above from
`VisWeights._skip_epoch`) is evaluated first, then the last-epoch-only
gate (embedded above from `Vis2DAbstract.precheck`); a cycle fires only
when both pass. -/
def controller_fires (interval : ℕ) (show_last_only : Bool)
    (epoch max_epochs : ℕ) : Bool :=
  if skip_epoch interval epoch then false
  else precheck show_last_only epoch max_epochs

/-! Topology-edge rendering.  The adjacency matrix `cmat` is a function
of the two indices; `n` is the number of prototypes.  Each drawn
segment is recorded by the index pair it connects. -/

/-- Edge loop of `VisNG2D.on_epoch_end` in `vis.py` (lines 218-226):
`for i in range(n): for j in range(i, n): if cmat[i][j]: plot`.  Python
range `(i, n)` is `(List.range n).drop i`. -/
def ngConnections_vis (n : ℕ) (cmat : ℕ → ℕ → Bool) : List (ℕ × ℕ) :=
  (List.range n).flatMap (fun i =>
    ((List.range' i (n - i)).filter (fun j => cmat i j)).map (fun j => (i, j)))

/-- Edge loop of `VisNG2D.on_epoch_end` in `callbacks/visualization.py`
(lines 403-411): `for i in range(n): for j in range(n): if cmat[i][j]:
plot` — the inner loop starts at 0, not at `i`. -/
def ngConnections_callbacks (n : ℕ) (cmat : ℕ → ℕ → Bool) : List (ℕ × ℕ) :=
  (List.range n).flatMap (fun i =>
    ((List.range n).filter (fun j => cmat i j)).map (fun j => (i, j)))

/-! VisWeights construction and per-cycle axis setup. -/

/-- The configuration fields of `VisWeights` relevant here. -/
structure VisWeightsState where
  axis_off : Bool
  interval : ℕ
  border : ℚ
  resolution : ℕ
  snap : Bool
  deriving DecidableEq, Repr

/-- Attribute assignment of `VisWeights.__init__`
(`callbacks/visualization.py` lines 24-74): line 51 assigns
`self.axis_off = True` literally, ignoring the `axis_off` argument; the
other arguments are stored as given. -/
def visWeights_init (axis_off : Bool) (interval : ℕ) (border : ℚ)
    (resolution : ℕ) (snap : Bool) : VisWeightsState :=
  { axis_off := true, interval, border, resolution, snap }

/-- The drawing-surface operations issued by `_clean_and_setup_ax`. -/
inductive AxOp where
  | cla : AxOp
  | setTitle : AxOp
  | axisOff : AxOp
  deriving DecidableEq, Repr

/-- Operation sequence of `VisWeights._clean_and_setup_ax`
(`callbacks/visualization.py` lines 82-88): clear unless in snap mode,
set the title, and hide the axes when `axis_off` is set. -/
def clean_and_setup_ax (s : VisWeightsState) : List AxOp :=
  (if !s.snap then [AxOp.cla] else []) ++ [AxOp.setTitle] ++
    (if s.axis_off then [AxOp.axisOff] else [])

/-! Theorems. -/

/-- C4: with a configured interval `k > 0` the skip check of
`VisWeights._skip_epoch` lets an epoch through exactly when the epoch
index is a multiple of `k`, and with the interval unset (zero/falsy) it
returns `False` for every epoch. -/
theorem skip_epoch_spec (k e : ℕ) :
    (0 < k → (skip_epoch k e = false ↔ e % k = 0)) ∧ skip_epoch 0 e = false := by
  refine ⟨fun hk => ?_, by simp [skip_epoch]⟩
  have hk' : k ≠ 0 := by omega
  by_cases h : e % k = 0 <;> simp [skip_epoch, hk', h]

/-- Witness for C4 at interval 5: epoch 10 fires, and with the interval
unset epoch 7 is not skipped. -/
theorem skip_epoch_spec_witness :
    (skip_epoch 5 10 = false ↔ 10 % 5 = 0) ∧ skip_epoch 0 7 = false :=
  ⟨(skip_epoch_spec 5 10).1 (by decide), (skip_epoch_spec 0 7).2⟩

/-- C5: with `show_last_only` enabled and `max_epochs = M ≥ 1`, the set
of epoch indices in a run at which `VisGLVQ2D.on_epoch_end` draws is
exactly `{M - 1}` — one render cycle, at the final epoch — and every
gated cycle draws nothing and returns the skip signal `True`. -/
theorem show_last_only_spec (M : ℕ) (hM : 1 ≤ M) :
    ((Finset.range M).filter
        (fun e => (visGLVQ2D_on_epoch_end true e M).drew = true) = {M - 1})
    ∧ (∀ e, e ≠ M - 1 →
        visGLVQ2D_on_epoch_end true e M = { drew := false, ret := some true }) := by
  constructor
  · ext e
    simp only [Finset.mem_filter, Finset.mem_range, Finset.mem_singleton]
    by_cases h : e = M - 1
    · subst h
      simp [visGLVQ2D_on_epoch_end, precheck]
      omega
    · simp [visGLVQ2D_on_epoch_end, precheck, h]
  · intro e h
    simp [visGLVQ2D_on_epoch_end, precheck, h]

/-- Witness for C5 with 20 configured epochs: only epoch index 19
renders, and the gated epoch 3 returns the skip signal. -/
theorem show_last_only_spec_witness :
    ((Finset.range 20).filter
        (fun e => (visGLVQ2D_on_epoch_end true e 20).drew = true) = {19})
    ∧ visGLVQ2D_on_epoch_end true 3 20 = { drew := false, ret := some true } :=
  ⟨(show_last_only_spec 20 (by decide)).1,
    (show_last_only_spec 20 (by decide)).2 3 (by decide)⟩

/-- C9: with both gates configured (`interval = 3`,
`show_last_only = True`) over a 10-epoch run, exactly epoch index 9
fires; and in general a cycle fires only when the interval gate and the
last-epoch-only gate both pass. -/
theorem controller_both_gates_spec :
    ((Finset.range 10).filter (fun e => controller_fires 3 true e 10 = true) = {9})
    ∧ (∀ k b e M, controller_fires k b e M = true →
        skip_epoch k e = false ∧ precheck b e M = true) := by
  constructor
  · decide
  · intro k b e M h
    unfold controller_fires at h
    by_cases hs : skip_epoch k e = true <;> simp [hs] at h ⊢
    exact h

/-- Witness for C9: epoch 9 of the 10-epoch run passes both gates. -/
theorem controller_both_gates_spec_witness :
    skip_epoch 3 9 = false ∧ precheck true 9 10 = true :=
  controller_both_gates_spec.2 3 true 9 10 (by decide)

/-- C10: whatever `axis_off` argument `VisWeights.__init__` is given
(`False` included), the stored attribute is `True`, and therefore every
render cycle's axis setup issues the axis-hiding operation. -/
theorem visWeights_axis_off_forced (a : Bool) (i : ℕ) (b : ℚ) (r : ℕ)
    (sn : Bool) :
    (visWeights_init a i b r sn).axis_off = true
    ∧ AxOp.axisOff ∈ clean_and_setup_ax (visWeights_init a i b r sn) := by
  constructor
  · rfl
  · simp [clean_and_setup_ax, visWeights_init]

/-- C8: an input source that reaches the `else` branch of
`Vis2DAbstract.__init__` (neither a `Dataset` nor a `DataLoader`) and
is not a two-element sequence makes the unpacking `x, y = data` fail at
construction time with the invalid-input-kind error carrying the
offending arity. -/
theorem unrecognized_input_fails {α : Type} (elems : List α)
    (h : elems.length ≠ 2) :
    vis2d_unpack2 elems
      = Except.error (InitError.invalidInputKind elems.length) := by
  match elems with
  | [] => rfl
  | [a] => rfl
  | [a, b] => exact absurd rfl h
  | a :: b :: c :: t => rfl

/-- Witness for C8: a three-element sequence is rejected with its
arity. -/
theorem unrecognized_input_fails_witness :
    vis2d_unpack2 [(1 : ℕ), 2, 3]
      = Except.error (InitError.invalidInputKind 3) :=
  unrecognized_input_fails [(1 : ℕ), 2, 3] (by decide)

/-- Batches of the loader shape represent the logical dataset `ds` when
their feature batches, in emitted order, concatenate to the features of
`ds`, and likewise for labels. -/
def loaderRepresents (batches : List (List NTensor × List ℚ))
    (ds : List (NTensor × ℚ)) : Prop :=
  (batches.map Prod.fst).flatten = ds.map Prod.fst ∧
  (batches.map Prod.snd).flatten = ds.map Prod.snd

theorem ingest_loader_eq_flatten (batches : List (List NTensor × List ℚ)) :
    ingest_loader batches
      = ((batches.map Prod.fst).flatten, (batches.map Prod.snd).flatten) := by
  suffices h : ∀ acc : List NTensor × List ℚ,
      batches.foldl (fun acc b => (acc.1 ++ b.1, acc.2 ++ b.2)) acc
        = (acc.1 ++ (batches.map Prod.fst).flatten,
           acc.2 ++ (batches.map Prod.snd).flatten) by
    simpa [ingest_loader] using h ([], [])
  induction batches with
  | nil => intro acc; simp
  | cons b bs ih =>
    intro acc
    simp [List.foldl_cons, ih]

/-- C2: the three ingestion branches of `Vis2DAbstract.__init__` agree —
consuming a batch iterable whose batches concatenate to the logical
dataset, or the eager collection as one full-size batch, or the
explicit `(features, labels)` pair, followed in each case by the
optional flattening step, yields identical ordered feature and label
sequences. -/
theorem ingestion_shapes_agree (flag : Bool) (ds : List (NTensor × ℚ))
    (batches : List (List NTensor × List ℚ))
    (h : loaderRepresents batches ds) :
    applyFlatten flag (ingest_loader batches)
        = applyFlatten flag (ingest_dataset ds)
    ∧ applyFlatten flag (ingest_pair (ds.map Prod.fst) (ds.map Prod.snd))
        = applyFlatten flag (ingest_dataset ds) := by
  obtain ⟨h1, h2⟩ := h
  refine ⟨?_, rfl⟩
  rw [ingest_loader_eq_flatten, ingest_dataset, h1, h2]

/-- Witness for C2: a two-sample dataset delivered in two one-sample
batches, as an eager collection, and as an explicit pair, with
flattening on. -/
theorem ingestion_shapes_agree_witness :
    applyFlatten true
        (ingest_loader [([NTensor.scalar 1], [0]), ([NTensor.scalar 2], [1])])
      = applyFlatten true
          (ingest_dataset [(NTensor.scalar 1, 0), (NTensor.scalar 2, 1)])
    ∧ applyFlatten true
        (ingest_pair [NTensor.scalar 1, NTensor.scalar 2] [0, 1])
      = applyFlatten true
          (ingest_dataset [(NTensor.scalar 1, 0), (NTensor.scalar 2, 1)]) :=
  ingestion_shapes_agree true [(NTensor.scalar 1, 0), (NTensor.scalar 2, 1)]
    [([NTensor.scalar 1], [0]), ([NTensor.scalar 2], [1])] ⟨rfl, rfl⟩

theorem ng_edges_mem (n : ℕ) (cmat : ℕ → ℕ → Bool) (p : ℕ × ℕ) :
    p ∈ ngConnections_vis n cmat ↔
      p.1 ≤ p.2 ∧ p.2 < n ∧ cmat p.1 p.2 = true := by
  obtain ⟨i, j⟩ := p
  simp only [ngConnections_vis, List.mem_flatMap, List.mem_map,
    List.mem_filter, List.mem_range, List.mem_range'_1, Prod.mk.injEq]
  constructor
  · rintro ⟨a, ha, x, ⟨⟨hax, hx⟩, hc⟩, rfl, rfl⟩
    exact ⟨hax, by omega, hc⟩
  · rintro ⟨hij, hjn, hc⟩
    exact ⟨i, by omega, j, ⟨⟨hij, by omega⟩, hc⟩, rfl, rfl⟩

theorem ng_edges_nodup (n : ℕ) (cmat : ℕ → ℕ → Bool) :
    (ngConnections_vis n cmat).Nodup := by
  unfold ngConnections_vis
  rw [List.nodup_flatMap]
  constructor
  · intro i _
    refine List.Nodup.map ?_ ((List.nodup_range' ..).filter _)
    intro a b hab
    simpa using hab
  · refine (List.pairwise_lt_range ..).imp ?_
    intro a b hab
    simp only [List.disjoint_left, List.mem_map, List.mem_filter]
    rintro p ⟨x, _, rfl⟩ ⟨x', _, hx'⟩
    exact absurd (congrArg Prod.fst hx').symm (by omega)

/-- C3 (amended to the `vis.py` renderer): `VisNG2D.on_epoch_end` in
`vis.py` iterates only over index pairs with the second index at least
the first, draws no pair twice, and draws exactly as many segments as
there are set entries `cmat[i][j]` with `i ≤ j`. -/
theorem ng_edges_upper_triangle_spec (n : ℕ) (cmat : ℕ → ℕ → Bool)
    (hsym : ∀ i j, cmat i j = cmat j i) :
    (∀ p : ℕ × ℕ, p ∈ ngConnections_vis n cmat ↔
        p.1 ≤ p.2 ∧ p.2 < n ∧ cmat p.1 p.2 = true)
    ∧ (ngConnections_vis n cmat).Nodup
    ∧ (ngConnections_vis n cmat).length
        = ((Finset.range n ×ˢ Finset.range n).filter
            (fun p => p.1 ≤ p.2 ∧ cmat p.1 p.2 = true)).card := by
  refine ⟨ng_edges_mem n cmat, ng_edges_nodup n cmat, ?_⟩
  rw [← List.toFinset_card_of_nodup (ng_edges_nodup n cmat)]
  congr 1
  ext p
  simp only [List.mem_toFinset, ng_edges_mem, Finset.mem_filter,
    Finset.mem_product, Finset.mem_range]
  constructor
  · rintro ⟨h1, h2, h3⟩
    exact ⟨⟨by omega, h2⟩, h1, h3⟩
  · rintro ⟨⟨_, h2⟩, h1, h3⟩
    exact ⟨h1, h2, h3⟩

/-- A concrete symmetric adjacency: an edge wherever the indices sum to
three. -/
def cmatW : ℕ → ℕ → Bool := fun i j => decide (i + j = 3)

/-- Witness for C3 on three prototypes with the symmetric matrix
`cmatW`: the drawn-segment count matches the upper-triangle count,
which is one (the single edge (1, 2)). -/
theorem ng_edges_upper_triangle_spec_witness :
    ((ngConnections_vis 3 cmatW).length
      = ((Finset.range 3 ×ˢ Finset.range 3).filter
          (fun p => p.1 ≤ p.2 ∧ cmatW p.1 p.2 = true)).card)
    ∧ (ngConnections_vis 3 cmatW).length = 1 :=
  ⟨(ng_edges_upper_triangle_spec 3 cmatW
      (fun i j => by simp [cmatW, Nat.add_comm])).2.2, by decide⟩

/-- A concrete symmetric adjacency over two prototypes with the single
off-diagonal edge set in both directions. -/
def cmatEx : ℕ → ℕ → Bool := fun i j => decide (i ≠ j)

theorem cmatEx_symm (i j : ℕ) : cmatEx i j = cmatEx j i := by
  simp [cmatEx, ne_comm]

/-- Counterexample to C3 as stated: the near-duplicate
`VisNG2D.on_epoch_end` of `callbacks/visualization.py` iterates both
indices over the full range, so with the symmetric matrix `cmatEx` over
two prototypes it draws two segments where the upper-triangle count of
set entries is one. -/
theorem ng_edges_callbacks_counterexample :
    (ngConnections_callbacks 2 cmatEx).length = 2
    ∧ ((Finset.range 2 ×ˢ Finset.range 2).filter
        (fun p => p.1 ≤ p.2 ∧ cmatEx p.1 p.2 = true)).card = 1 := by
  constructor <;> decide


theorem npArange_length (a b s : ℚ) :
    (npArange a b s).length = npArangeLen a b s := by
  unfold npArange
  rw [List.length_map, List.length_range]

theorem npArange_mem_bounds (a b s x : ℚ) (hs : 0 < s)
    (hx : x ∈ npArange a b s) : a ≤ x ∧ x < b := by
  unfold npArange npArangeLen at hx
  rcases List.mem_map.mp hx with ⟨i, hi, rfl⟩
  have hi' : i < (Int.ceil ((b - a) / s)).toNat := List.mem_range.mp hi
  have h1 : (i : ℤ) < Int.ceil ((b - a) / s) := Int.lt_toNat.mp hi'
  have h2 : ((i : ℚ)) < (b - a) / s := by
    have hceil : ((Int.ceil ((b - a) / s) : ℤ) : ℚ) < (b - a) / s + 1 :=
      Int.ceil_lt_add_one ((b - a) / s)
    have h3 : ((i : ℚ)) + 1 ≤ ((Int.ceil ((b - a) / s) : ℤ) : ℚ) := by
      exact_mod_cast Int.add_one_le_iff.mpr h1
    linarith
  constructor
  · have : (0 : ℚ) ≤ (i : ℚ) * s := mul_nonneg (by positivity) hs.le
    linarith
  · have h4 : (i : ℚ) * s < ((b - a) / s) * s := mul_lt_mul_of_pos_right h2 hs
    rw [div_mul_cancel₀ _ hs.ne'] at h4
    linarith

theorem npArange_length_div (a b : ℚ) (r : ℕ) (hr : 1 ≤ r) (hab : a < b) :
    (npArange a b ((b - a) / (r : ℚ))).length = r := by
  have hba : b - a ≠ 0 := sub_ne_zero.mpr hab.ne'
  have hr0 : (r : ℚ) ≠ 0 := Nat.cast_ne_zero.mpr (by omega)
  rw [npArange_length]
  unfold npArangeLen
  have hq : (b - a) / ((b - a) / (r : ℚ)) = (r : ℚ) := by field_simp
  rw [hq]
  simp

theorem npArange_head (a b s : ℚ) (h : 0 < npArangeLen a b s) :
    (npArange a b s).head? = some a := by
  unfold npArange
  obtain ⟨m, hm⟩ : ∃ m, npArangeLen a b s = m + 1 :=
    ⟨npArangeLen a b s - 1, by omega⟩
  rw [hm, List.range_succ_eq_map]
  simp

theorem npArange_getLast (a b s : ℚ) (m : ℕ) (h : npArangeLen a b s = m + 1) :
    (npArange a b s).getLast? = some (a + m * s) := by
  unfold npArange
  rw [h, List.range_succ m, List.map_append]
  simp

theorem visPointProtos_mesh_ok (cloud : List (ℚ × ℚ)) (b : ℚ) (r : ℕ)
    (h : (qmax (cloud.map Prod.fst) + b - (qmin (cloud.map Prod.fst) - b))
        / (r : ℚ) ≠ 0) :
    visPointProtos_mesh cloud b r = Except.ok
      { xs := npArange (qmin (cloud.map Prod.fst) - b)
          (qmax (cloud.map Prod.fst) + b)
          ((qmax (cloud.map Prod.fst) + b - (qmin (cloud.map Prod.fst) - b))
            / (r : ℚ)),
        ys := npArange (qmin (cloud.map Prod.snd) - b)
          (qmax (cloud.map Prod.snd) + b)
          ((qmax (cloud.map Prod.fst) + b - (qmin (cloud.map Prod.fst) - b))
            / (r : ℚ)) } := by
  unfold visPointProtos_mesh
  simp only [if_neg h]

/-- C1 (amended): for every cloud, margin and positive resolution whose
expanded x-range is positive, the mesh succeeds; its x-axis holds
exactly `resolution` samples, starts exactly at `min x - border`, has
the uniform step `(expanded x-range) / resolution`, and its last sample
is `max x + border - step`, strictly short of `max x + border`; every
grid coordinate lies in the half-open expanded box.  So the grid's
bounding box is contained in the border-expanded cloud bounding box and
shares its lower-left corner, but the upper edge falls one step short
of it rather than matching it exactly, and the y-axis reuses the x-axis
step rather than being sampled at `resolution` steps of its own. -/
theorem mesh_bounding_box_spec (cloud : List (ℚ × ℚ)) (b : ℚ) (r : ℕ)
    (hr : 1 ≤ r)
    (hx : qmin (cloud.map Prod.fst) - b < qmax (cloud.map Prod.fst) + b) :
    ∃ m, visPointProtos_mesh cloud b r = Except.ok m
    ∧ m.xs.length = r
    ∧ m.xs.head? = some (qmin (cloud.map Prod.fst) - b)
    ∧ m.xs.getLast? = some (qmax (cloud.map Prod.fst) + b
        - (qmax (cloud.map Prod.fst) + b - (qmin (cloud.map Prod.fst) - b))
            / (r : ℚ))
    ∧ (∀ x ∈ m.xs, qmin (cloud.map Prod.fst) - b ≤ x
        ∧ x < qmax (cloud.map Prod.fst) + b)
    ∧ (∀ y ∈ m.ys, qmin (cloud.map Prod.snd) - b ≤ y
        ∧ y < qmax (cloud.map Prod.snd) + b)
    ∧ qmax (cloud.map Prod.fst) + b
        - (qmax (cloud.map Prod.fst) + b - (qmin (cloud.map Prod.fst) - b))
            / (r : ℚ)
      < qmax (cloud.map Prod.fst) + b := by
  have hrQ : (1 : ℚ) ≤ (r : ℚ) := by exact_mod_cast hr
  have hs : 0 < (qmax (cloud.map Prod.fst) + b
      - (qmin (cloud.map Prod.fst) - b)) / (r : ℚ) :=
    div_pos (by linarith) (by linarith)
  have hlen : npArangeLen (qmin (cloud.map Prod.fst) - b)
      (qmax (cloud.map Prod.fst) + b)
      ((qmax (cloud.map Prod.fst) + b - (qmin (cloud.map Prod.fst) - b))
        / (r : ℚ)) = r := by
    have h := npArange_length_div (qmin (cloud.map Prod.fst) - b)
      (qmax (cloud.map Prod.fst) + b) r hr (by linarith)
    rwa [npArange_length] at h
  refine ⟨_, visPointProtos_mesh_ok cloud b r hs.ne', ?_, ?_, ?_, ?_, ?_, ?_⟩
  · exact npArange_length_div _ _ r hr (by linarith)
  · exact npArange_head _ _ _ (by omega)
  · rw [npArange_getLast _ _ _ (r - 1) (by omega)]
    rw [Nat.cast_sub hr]
    have hr0 : (r : ℚ) ≠ 0 := by linarith
    congr 1
    field_simp
    ring
  · exact fun x hx' => npArange_mem_bounds _ _ _ x hs hx'
  · exact fun y hy' => npArange_mem_bounds _ _ _ y hs hy'
  · linarith

/-- Witness for C1 (amended) on the cloud `{(0,0), (1,1)}` with margin
one and resolution fifty. -/
theorem mesh_bounding_box_spec_witness :
    ∃ m, visPointProtos_mesh [((0 : ℚ), (0 : ℚ)), (1, 1)] 1 50 = Except.ok m
    ∧ m.xs.length = 50
    ∧ m.xs.head? = some (qmin ([((0 : ℚ), (0 : ℚ)), (1, 1)].map Prod.fst) - 1)
    ∧ m.xs.getLast? = some (qmax ([((0 : ℚ), (0 : ℚ)), (1, 1)].map Prod.fst) + 1
        - (qmax ([((0 : ℚ), (0 : ℚ)), (1, 1)].map Prod.fst) + 1
            - (qmin ([((0 : ℚ), (0 : ℚ)), (1, 1)].map Prod.fst) - 1)) / ((50 : ℕ) : ℚ))
    ∧ (∀ x ∈ m.xs, qmin ([((0 : ℚ), (0 : ℚ)), (1, 1)].map Prod.fst) - 1 ≤ x
        ∧ x < qmax ([((0 : ℚ), (0 : ℚ)), (1, 1)].map Prod.fst) + 1)
    ∧ (∀ y ∈ m.ys, qmin ([((0 : ℚ), (0 : ℚ)), (1, 1)].map Prod.snd) - 1 ≤ y
        ∧ y < qmax ([((0 : ℚ), (0 : ℚ)), (1, 1)].map Prod.snd) + 1)
    ∧ qmax ([((0 : ℚ), (0 : ℚ)), (1, 1)].map Prod.fst) + 1
        - (qmax ([((0 : ℚ), (0 : ℚ)), (1, 1)].map Prod.fst) + 1
            - (qmin ([((0 : ℚ), (0 : ℚ)), (1, 1)].map Prod.fst) - 1)) / ((50 : ℕ) : ℚ)
      < qmax ([((0 : ℚ), (0 : ℚ)), (1, 1)].map Prod.fst) + 1 :=
  mesh_bounding_box_spec [((0 : ℚ), (0 : ℚ)), (1, 1)] 1 50 (by norm_num)
    (by norm_num [qmin, qmax, min_def, max_def])

theorem foldl_max_mem (l : List ℚ) : ∀ a : ℚ, l.foldl max a = a ∨ l.foldl max a ∈ l := by
  induction l with
  | nil => intro a; left; rfl
  | cons x xs ih =>
    intro a
    rcases ih (max a x) with h | h
    · rw [List.foldl_cons, h]
      rcases max_choice a x with hm | hm
      · left; exact hm
      · right; rw [hm]; exact List.mem_cons_self ..
    · right
      rw [List.foldl_cons]
      exact List.mem_cons_of_mem _ h

theorem qmax_mem (l : List ℚ) (h : l ≠ []) : qmax l ∈ l := by
  cases l with
  | nil => exact absurd rfl h
  | cons a t =>
    show t.foldl max a ∈ a :: t
    rcases foldl_max_mem t a with h' | h'
    · rw [h']; exact List.mem_cons_self ..
    · exact List.mem_cons_of_mem _ h'

/-- Counterexample to C1 as stated: on the cloud `{(0,0), (1,1)}` with
margin one and resolution two the mesh succeeds, but the largest x-grid
coordinate is not `max x + margin` — the grid's bounding box is
strictly inside the margin-expanded cloud bounding box, not equal to
it. -/
theorem c1_counterexample :
    ∃ m, visPointProtos_mesh [((0 : ℚ), (0 : ℚ)), (1, 1)] 1 2 = Except.ok m
      ∧ qmax m.xs ≠ qmax ([((0 : ℚ), (0 : ℚ)), (1, 1)].map Prod.fst) + 1 := by
  have hq1 : qmin ([((0 : ℚ), (0 : ℚ)), (1, 1)].map Prod.fst) = 0 := by
    norm_num [qmin, min_def]
  have hq2 : qmax ([((0 : ℚ), (0 : ℚ)), (1, 1)].map Prod.fst) = 1 := by
    norm_num [qmax, max_def]
  have hs : 0 < (qmax ([((0 : ℚ), (0 : ℚ)), (1, 1)].map Prod.fst) + 1
      - (qmin ([((0 : ℚ), (0 : ℚ)), (1, 1)].map Prod.fst) - 1)) / ((2 : ℕ) : ℚ) := by
    rw [hq1, hq2]; norm_num
  refine ⟨_, visPointProtos_mesh_ok _ 1 2 hs.ne', ?_⟩
  intro hcontra
  have hne : npArange (qmin ([((0 : ℚ), (0 : ℚ)), (1, 1)].map Prod.fst) - 1)
      (qmax ([((0 : ℚ), (0 : ℚ)), (1, 1)].map Prod.fst) + 1)
      ((qmax ([((0 : ℚ), (0 : ℚ)), (1, 1)].map Prod.fst) + 1
        - (qmin ([((0 : ℚ), (0 : ℚ)), (1, 1)].map Prod.fst) - 1)) / ((2 : ℕ) : ℚ)) ≠ [] := by
    have hlen := npArange_length_div
      (qmin ([((0 : ℚ), (0 : ℚ)), (1, 1)].map Prod.fst) - 1)
      (qmax ([((0 : ℚ), (0 : ℚ)), (1, 1)].map Prod.fst) + 1) 2 (by norm_num)
      (by rw [hq1, hq2]; norm_num)
    intro hnil
    rw [hnil] at hlen
    simp at hlen
  have hmem := qmax_mem _ hne
  have hbound := npArange_mem_bounds _ _ _ _ hs hmem
  rw [hcontra] at hbound
  exact absurd hbound.2 (lt_irrefl _)

/-- C6 (amended): a collapse of the expanded x-range — the axis whose
width the shared step is computed from — makes the step zero, and the
mesh construction fails with the degenerate-range error carrying the
offending expanded x-range bounds. -/
theorem mesh_degenerate_x_axis (cloud : List (ℚ × ℚ)) (b : ℚ) (r : ℕ)
    (h : qmax (cloud.map Prod.fst) + b = qmin (cloud.map Prod.fst) - b) :
    visPointProtos_mesh cloud b r
      = Except.error (MeshError.degenerate (qmin (cloud.map Prod.fst) - b)
          (qmax (cloud.map Prod.fst) + b)) := by
  unfold visPointProtos_mesh
  rw [h]
  simp

/-- Witness for C6 (amended): a two-point cloud with a single x
coordinate and margin zero fails with the degenerate error. -/
theorem mesh_degenerate_x_axis_witness :
    visPointProtos_mesh [((3 : ℚ), (0 : ℚ)), (3, 1)] 0 10
      = Except.error (MeshError.degenerate
          (qmin ([((3 : ℚ), (0 : ℚ)), (3, 1)].map Prod.fst) - 0)
          (qmax ([((3 : ℚ), (0 : ℚ)), (3, 1)].map Prod.fst) + 0)) :=
  mesh_degenerate_x_axis [((3 : ℚ), (0 : ℚ)), (3, 1)] 0 10
    (by norm_num [qmin, qmax, min_def, max_def])

/-- Counterexample to C6 as stated: the cloud `{(0,5), (1,5)}` with
margin zero collapses on the y-axis (max equals min), yet the mesh
construction does not fail — it returns a grid whose y-axis is empty,
because the step is taken from the non-degenerate x-range. -/
theorem c6_counterexample :
    ∃ m, visPointProtos_mesh [((0 : ℚ), (5 : ℚ)), (1, 5)] 0 10 = Except.ok m
      ∧ m.ys = [] := by
  have hq1 : qmin ([((0 : ℚ), (5 : ℚ)), (1, 5)].map Prod.fst) = 0 := by
    norm_num [qmin, min_def]
  have hq2 : qmax ([((0 : ℚ), (5 : ℚ)), (1, 5)].map Prod.fst) = 1 := by
    norm_num [qmax, max_def]
  have hy1 : qmin ([((0 : ℚ), (5 : ℚ)), (1, 5)].map Prod.snd) = 5 := by
    norm_num [qmin, min_def]
  have hy2 : qmax ([((0 : ℚ), (5 : ℚ)), (1, 5)].map Prod.snd) = 5 := by
    norm_num [qmax, max_def]
  refine ⟨_, visPointProtos_mesh_ok _ 0 10 ?_, ?_⟩
  · rw [hq1, hq2]; norm_num
  · show npArange _ _ _ = []
    rw [hy1, hy2]
    unfold npArange npArangeLen
    norm_num
